import Mathlib

/-!
Shallow embedding of the snake-game engine implemented in the repository's
single page component (src/unnamed/part_000).  The pure helpers
(`isOpposite`, `spawnFood`) are translated directly; the React state hooks
are modelled as a record (`GameState`) of the component's state cells, and
each event handler becomes an explicit state-transition function
(`resetGame`, `tick`, `handleKeyDown`).  `Math.random()` inside `spawnFood`
is modelled by an oracle index `r : Nat`: `Math.floor(Math.random() * n)` is
an arbitrary value in `[0, n)`, embedded as `r % n`.
-/

namespace Snake

/-- Cell coordinate, source line 5: `type Point = { x: number; y: number }`.
Coordinates are integers (the computed next head can be -1 or 20). -/
@[ext]
structure Point where
  x : Int
  y : Int
deriving DecidableEq, Repr

/-- Source line 7: `const BOARD_SIZE = 20`. -/
def BOARD_SIZE : Nat := 20

/-- Source line 8: `const INITIAL_SPEED = 160`. -/
def INITIAL_SPEED : Nat := 160

/-- Game status, source line 46: `"ready" | "running" | "over"`. -/
inductive Status where
  | ready
  | running
  | over
deriving DecidableEq, Repr

/-- The keyboard keys the component distinguishes (source lines 10-15 and
130): the four arrow keys, the space bar, and any other key. -/
inductive Key where
  | arrowUp
  | arrowDown
  | arrowLeft
  | arrowRight
  | space
  | other
deriving DecidableEq, Repr

/-- Source lines 10-15: the `DIRECTIONS` record; looking up a key that is
not in the record (space or any other key) yields `undefined`, modelled as
`none`. -/
def DIRECTIONS : Key → Option Point
  | Key.arrowUp => some { x := 0, y := -1 }
  | Key.arrowDown => some { x := 0, y := 1 }
  | Key.arrowLeft => some { x := -1, y := 0 }
  | Key.arrowRight => some { x := 1, y := 0 }
  | Key.space => none
  | Key.other => none

/-- Source lines 17-18:
`current.x + next.x === 0 && current.y + next.y === 0`. -/
def isOpposite (current next : Point) : Bool :=
  current.x + next.x == 0 && current.y + next.y == 0

/-- The occupancy test `occupied.some((cell) => cell.x === x && cell.y === y)`
used at source line 24 (inside `spawnFood`) and, with the snake as the
occupied list, at source lines 91-93 (`hitSelf`). -/
def cellOccupied (occupied : List Point) (p : Point) : Bool :=
  occupied.any fun cell => cell.x == p.x && cell.y == p.y

/-- The 400 board cells in the iteration order of the nested loops at
source lines 22-28 (`y` outer, `x` inner). -/
def allCells : List Point :=
  (List.range BOARD_SIZE).flatMap fun (y : Nat) =>
    (List.range BOARD_SIZE).map fun (x : Nat) => { x := Int.ofNat x, y := Int.ofNat y }

/-- Source lines 21-28: the `freeCells` array built by the nested loops —
every board cell that fails the occupancy test, in loop order. -/
def freeCells (occupied : List Point) : List Point :=
  allCells.filter fun p => !(cellOccupied occupied p)

/-- Source lines 20-33.  If no cell is free the fallback `{x: 0, y: 0}` is
returned; otherwise `freeCells[Math.floor(Math.random() * freeCells.length)]`,
with the random index modelled as `r % freeCells.length`. -/
def spawnFood (occupied : List Point) (r : Nat) : Point :=
  if (freeCells occupied).length = 0 then { x := 0, y := 0 }
  else (freeCells occupied).getD (r % (freeCells occupied).length) { x := 0, y := 0 }

/-- The component's state cells (source lines 36-47): the `useState` hooks
plus the `pendingDirection` ref. -/
structure GameState where
  snake : List Point
  direction : Point
  food : Point
  speed : Nat
  score : Nat
  bestScore : Nat
  status : Status
  pending : Option Point
deriving DecidableEq, Repr

/-- The canonical 3-segment starting snake (source lines 36-40 and 61-65). -/
def initialSnake : List Point :=
  [{ x := 10, y := 10 }, { x := 9, y := 10 }, { x := 8, y := 10 }]

/-- The freshly mounted component (source lines 36-47): food spawned against
the initial snake with oracle `r`, status `ready`; `b` is the best score
after the load effect (source lines 162-170) in the well-formed case. -/
def initState (r b : Nat) : GameState :=
  { snake := initialSnake
    direction := { x := 1, y := 0 }
    food := spawnFood initialSnake r
    speed := INITIAL_SPEED
    score := 0
    bestScore := b
    status := Status.ready
    pending := none }

/-- Source lines 60-73: `resetGame` restores the canonical layout, respawns
the food against the initial snake, and lands in `running`; the best score
is the only surviving state. -/
def resetGame (r : Nat) (s : GameState) : GameState :=
  { snake := initialSnake
    direction := { x := 1, y := 0 }
    food := spawnFood initialSnake r
    speed := INITIAL_SPEED
    score := 0
    bestScore := s.bestScore
    status := Status.running
    pending := none }

/-- `pendingDirection.current ?? direction` (source lines 77 and 149). -/
def effectiveDirection (s : GameState) : Point :=
  s.pending.getD s.direction

/-- Source lines 79-83: the current head plus the effective direction.
The source indexes `currentSnake[0]`; the snake is never empty in any
reachable state, so the `headD` default is irrelevant there. -/
def nextHeadOf (s : GameState) : Point :=
  { x := (s.snake.headD { x := 0, y := 0 }).x + (effectiveDirection s).x
    y := (s.snake.headD { x := 0, y := 0 }).y + (effectiveDirection s).y }

/-- Source lines 85-89: `hitWall`. -/
def hitWall (p : Point) : Bool :=
  decide (p.x < 0) || decide (p.x ≥ (BOARD_SIZE : Int)) ||
    decide (p.y < 0) || decide (p.y ≥ (BOARD_SIZE : Int))

/-- Source line 101: `nextHead.x === food.x && nextHead.y === food.y`. -/
def hasEaten (s : GameState) : Bool :=
  (nextHeadOf s).x == s.food.x && (nextHeadOf s).y == s.food.y

/-- Source lines 75-114, one invocation of `tick`.  Every branch reflects
`pendingDirection.current = null` (line 78).  The source tests
`if (!hasEaten) { newSnake.pop() } else { ... }`; the two branches are
swapped here (eat first), which is identical in effect.  Note the source
never calls `setDirection` here: `direction` is left unchanged. -/
def tick (r : Nat) (s : GameState) : GameState :=
  if hitWall (nextHeadOf s) || cellOccupied s.snake (nextHeadOf s) then
    { s with status := Status.over,
             bestScore := max s.bestScore s.score,
             pending := none }
  else if hasEaten s then
    { s with snake := nextHeadOf s :: s.snake,
             food := spawnFood (nextHeadOf s :: s.snake) r,
             score := s.score + 1,
             speed := max 60 (s.speed - 5),
             pending := none }
  else
    { s with snake := (nextHeadOf s :: s.snake).dropLast,
             pending := none }

/-- Source lines 128-154, one keydown event.  `status` in the handler is the
closure snapshot: the source promotes `ready` to `running` via
`setStatus("running")` and then tests `if (status !== "running") return;`
against the OLD status, so a direction key pressed in `ready` returns right
after the transition, before the buffer write.  The nesting here returns the
promoted state whenever the old status is not `running`, which is the same
behaviour. -/
def handleKeyDown (k : Key) (r : Nat) (s : GameState) : GameState :=
  if k = Key.space ∧ s.status ≠ Status.running then resetGame r s
  else
    match DIRECTIONS k with
    | none => s
    | some next =>
      if s.status ≠ Status.running then
        (if s.status = Status.ready then { s with status := Status.running } else s)
      else if isOpposite (effectiveDirection s) next then s
      else { s with pending := some next }

/-- The states reachable from a fresh mount by resets, keydown events and
timer ticks.  The interval that invokes `tick` is scheduled only while
status is `running` (source lines 116-126), hence the side condition on
`stepTick`. -/
inductive Reachable : GameState → Prop where
  | init (r b : Nat) : Reachable (initState r b)
  | stepReset {s : GameState} (r : Nat) : Reachable s → Reachable (resetGame r s)
  | stepKey {s : GameState} (k : Key) (r : Nat) :
      Reachable s → Reachable (handleKeyDown k r s)
  | stepTick {s : GameState} (r : Nat) :
      Reachable s → s.status = Status.running → Reachable (tick r s)

/-- JS number as far as the best-score persistence path observes it: either
an actual (here: natural) number or NaN. -/
inductive JSNumber where
  | num (n : Nat)
  | nan
deriving DecidableEq, Repr

/-- Decimal digit test for a character (the fragment of the JS numeric
grammar relevant to values this app itself persists, which are always
`String(bestScore)`, i.e. plain digit strings). -/
def isDigitChar (c : Char) : Bool :=
  48 ≤ c.toNat && c.toNat ≤ 57

/-- Value of a digit string. -/
def digitsVal (cs : List Char) : Nat :=
  cs.foldl (fun acc c => acc * 10 + (c.toNat - 48)) 0

/-- The JS `Number(string)` conversion on the fragment of inputs relevant
here: the empty string converts to 0, a digit-only string converts to its
decimal value, and a malformed string (such as `"abc"`) converts to NaN. -/
def jsNumber (s : String) : JSNumber :=
  if s.data = [] then JSNumber.num 0
  else if s.data.all (fun c => isDigitChar c) then JSNumber.num (digitsVal s.data)
  else JSNumber.nan

/-- The best-score load effect, source lines 162-170:
`const storedBest = localStorage.getItem("snake-best-score");`
`if (storedBest) { setBestScore(Number(storedBest)); }`.
`bestScore` starts at 0; a `null` or empty (falsy) stored string leaves it
at 0; any other stored string is converted with `Number` and stored as-is,
NaN included — there is no validation. -/
def loadBestScore (stored : Option String) : JSNumber :=
  match stored with
  | none => JSNumber.num 0
  | some str => if str.data = [] then JSNumber.num 0 else jsNumber str

/-- Concrete running state for exercising the pending-direction path:
direction right, a buffered down input, food well away from the path. -/
def sC1 : GameState :=
  { snake := initialSnake
    direction := { x := 1, y := 0 }
    food := { x := 0, y := 0 }
    speed := 160
    score := 0
    bestScore := 0
    status := Status.running
    pending := some { x := 0, y := 1 } }

/-- Concrete `ready` state: fresh layout, direction right, empty buffer. -/
def sC2 : GameState :=
  { snake := initialSnake
    direction := { x := 1, y := 0 }
    food := { x := 0, y := 0 }
    speed := 160
    score := 0
    bestScore := 0
    status := Status.ready
    pending := none }

/-- The same state as `sC2` but already running. -/
def sRun : GameState :=
  { sC2 with status := Status.running }

/-- Running state whose next move enters its own tail: the snake loops
around a 2x2 block, head (10,10), tail (9,10), effective direction left. -/
def sTail : GameState :=
  { snake := [{ x := 10, y := 10 }, { x := 10, y := 11 },
              { x := 9, y := 11 }, { x := 9, y := 10 }]
    direction := { x := -1, y := 0 }
    food := { x := 0, y := 0 }
    speed := 160
    score := 1
    bestScore := 0
    status := Status.running
    pending := none }

/-- Running state about to hit the left wall: head (0,5) moving left, so the
next head is (-1,5). -/
def sWall : GameState :=
  { snake := [{ x := 0, y := 5 }, { x := 1, y := 5 }, { x := 2, y := 5 }]
    direction := { x := -1, y := 0 }
    food := { x := 10, y := 0 }
    speed := 160
    score := 2
    bestScore := 1
    status := Status.running
    pending := none }

/-- The spec's eating example: canonical snake, direction right, food at
(11,10), which is exactly the next head. -/
def sEat : GameState :=
  { snake := initialSnake
    direction := { x := 1, y := 0 }
    food := { x := 11, y := 10 }
    speed := 160
    score := 0
    bestScore := 0
    status := Status.running
    pending := none }

/-- The spec's plain-move example: canonical snake, direction right, food
away from (11,10). -/
def sMove : GameState :=
  { snake := initialSnake
    direction := { x := 1, y := 0 }
    food := { x := 0, y := 0 }
    speed := 160
    score := 0
    bestScore := 0
    status := Status.running
    pending := none }

/-- Food never coincides with the body, except in the degenerate fallback
state in which the snake occupies every board cell (the `spawnFood`
fallback to (0,0)). -/
def foodSafe (s : GameState) : Prop :=
  (∀ c ∈ s.snake, s.food ≠ c) ∨ (∀ p : Point, hitWall p = false → p ∈ s.snake)

/-- The inductive invariant: the body is duplicate-free, the length is
exactly 3 plus the score, and the food is off the body (with the
full-board degenerate exception). -/
def Inv (s : GameState) : Prop :=
  s.snake.Nodup ∧ s.snake.length = 3 + s.score ∧ foodSafe s

/-! ### Basic characterizations of the helpers -/

theorem point_check_iff (a b : Point) : (a.x == b.x && a.y == b.y) = true ↔ a = b := by
  cases a
  cases b
  simp [Point.ext_iff]

theorem cellOccupied_iff (l : List Point) (p : Point) :
    cellOccupied l p = true ↔ p ∈ l := by
  unfold cellOccupied
  rw [List.any_eq_true]
  constructor
  · rintro ⟨c, hc, hcp⟩
    rw [point_check_iff] at hcp
    exact hcp ▸ hc
  · intro hp
    exact ⟨p, hp, (point_check_iff p p).2 rfl⟩

theorem cellOccupied_eq_false {l : List Point} {p : Point} :
    cellOccupied l p = false ↔ p ∉ l := by
  rw [← Bool.not_eq_true, cellOccupied_iff]

theorem hitWall_false_iff (p : Point) :
    hitWall p = false ↔ 0 ≤ p.x ∧ p.x < 20 ∧ 0 ≤ p.y ∧ p.y < 20 := by
  unfold hitWall
  simp only [BOARD_SIZE, Bool.or_eq_false_iff, decide_eq_false_iff_not, not_lt, not_le]
  constructor
  · intro h
    omega
  · intro h
    omega

theorem mem_allCells {p : Point} (h : hitWall p = false) : p ∈ allCells := by
  obtain ⟨hx0, hx, hy0, hy⟩ := (hitWall_false_iff p).1 h
  have hx' : p.x.toNat < BOARD_SIZE := by
    unfold BOARD_SIZE
    omega
  have hy' : p.y.toNat < BOARD_SIZE := by
    unfold BOARD_SIZE
    omega
  have hp : p = { x := (p.x.toNat : Int), y := (p.y.toNat : Int) } := by
    refine Point.ext ?_ ?_ <;> simp <;> omega
  rw [hp]
  unfold allCells
  rw [List.mem_flatMap]
  exact ⟨p.y.toNat, List.mem_range.2 hy',
    List.mem_map.2 ⟨p.x.toNat, List.mem_range.2 hx', rfl⟩⟩

theorem mem_freeCells {occ : List Point} {p : Point} :
    p ∈ freeCells occ ↔ p ∈ allCells ∧ p ∉ occ := by
  unfold freeCells
  rw [List.mem_filter, Bool.not_eq_true', cellOccupied_eq_false]

theorem getD_mem (l : List Point) (n : Nat) (d : Point) (h : n < l.length) :
    l.getD n d ∈ l := by
  rw [List.getD_eq_getElem?_getD, List.getElem?_eq_getElem h]
  exact List.getElem_mem h

theorem spawnFood_mem_freeCells {occ : List Point} (r : Nat)
    (h : freeCells occ ≠ []) : spawnFood occ r ∈ freeCells occ := by
  unfold spawnFood
  have hl : (freeCells occ).length ≠ 0 := fun h0 => h (List.length_eq_zero.1 h0)
  rw [if_neg hl]
  exact getD_mem _ _ _ (Nat.mod_lt _ (Nat.pos_of_ne_zero hl))

theorem spawnFood_not_mem {occ : List Point} {r : Nat}
    (h : freeCells occ ≠ []) : spawnFood occ r ∉ occ :=
  fun hmem => (mem_freeCells.1 (spawnFood_mem_freeCells r h)).2 hmem

theorem spawnFood_of_full {occ : List Point} {r : Nat}
    (h : freeCells occ = []) : spawnFood occ r = { x := 0, y := 0 } := by
  simp [spawnFood, h]

theorem full_of_freeCells_nil {occ : List Point} (h : freeCells occ = [])
    {p : Point} (hw : hitWall p = false) : p ∈ occ := by
  by_contra hno
  have hmem : p ∈ freeCells occ := mem_freeCells.2 ⟨mem_allCells hw, hno⟩
  rw [h] at hmem
  exact absurd hmem (List.not_mem_nil p)

/-! ### Branch lemmas for tick and handleKeyDown -/

theorem hasEaten_iff (s : GameState) : hasEaten s = true ↔ nextHeadOf s = s.food := by
  unfold hasEaten
  exact point_check_iff _ _

theorem hasEaten_false_iff (s : GameState) :
    hasEaten s = false ↔ nextHeadOf s ≠ s.food := by
  rw [← Bool.not_eq_true, hasEaten_iff]

theorem tick_collision {s : GameState} (r : Nat)
    (hc : (hitWall (nextHeadOf s) || cellOccupied s.snake (nextHeadOf s)) = true) :
    tick r s = { s with status := Status.over,
                        bestScore := max s.bestScore s.score,
                        pending := none } := by
  unfold tick
  rw [if_pos hc]

theorem tick_eat {s : GameState} (r : Nat)
    (hc : (hitWall (nextHeadOf s) || cellOccupied s.snake (nextHeadOf s)) = false)
    (he : hasEaten s = true) :
    tick r s = { s with snake := nextHeadOf s :: s.snake,
                        food := spawnFood (nextHeadOf s :: s.snake) r,
                        score := s.score + 1,
                        speed := max 60 (s.speed - 5),
                        pending := none } := by
  unfold tick
  rw [if_neg (by simp [hc]), if_pos he]

theorem tick_move {s : GameState} (r : Nat)
    (hc : (hitWall (nextHeadOf s) || cellOccupied s.snake (nextHeadOf s)) = false)
    (he : hasEaten s = false) :
    tick r s = { s with snake := (nextHeadOf s :: s.snake).dropLast,
                        pending := none } := by
  unfold tick
  rw [if_neg (by simp [hc]), if_neg (by simp [he])]

theorem no_collision_parts {s : GameState}
    (hc : (hitWall (nextHeadOf s) || cellOccupied s.snake (nextHeadOf s)) = false) :
    hitWall (nextHeadOf s) = false ∧ nextHeadOf s ∉ s.snake := by
  rw [Bool.or_eq_false_iff] at hc
  exact ⟨hc.1, cellOccupied_eq_false.1 hc.2⟩

theorem collision_cond_of_mem {s : GameState} (hm : nextHeadOf s ∈ s.snake) :
    (hitWall (nextHeadOf s) || cellOccupied s.snake (nextHeadOf s)) = true := by
  rw [Bool.or_eq_true]
  exact Or.inr ((cellOccupied_iff _ _).2 hm)

theorem handleKeyDown_direction_key {s : GameState} {k : Key} {next : Point}
    (r : Nat) (hk : DIRECTIONS k = some next) :
    handleKeyDown k r s =
      (if s.status ≠ Status.running then
        (if s.status = Status.ready then { s with status := Status.running } else s)
      else if isOpposite (effectiveDirection s) next then s
      else { s with pending := some next }) := by
  have hks : k ≠ Key.space := by
    intro h
    rw [h] at hk
    exact Option.noConfusion hk
  unfold handleKeyDown
  rw [if_neg (fun h => hks h.1), hk]

/-! ### Preservation of the invariant -/

theorem inv_of_fields {s t : GameState} (hsn : t.snake = s.snake)
    (hsc : t.score = s.score) (hf : t.food = s.food) (h : Inv s) : Inv t := by
  unfold Inv foodSafe at h ⊢
  rw [hsn, hsc, hf]
  exact h

theorem freeCells_initialSnake_ne : freeCells initialSnake ≠ [] := by
  intro hnil
  have hw0 : hitWall { x := 0, y := 0 } = false := by decide
  have hn0 : ({ x := 0, y := 0 } : Point) ∉ initialSnake := by decide
  have h0 : ({ x := 0, y := 0 } : Point) ∈ freeCells initialSnake :=
    mem_freeCells.2 ⟨mem_allCells hw0, hn0⟩
  rw [hnil] at h0
  exact absurd h0 (List.not_mem_nil _)

theorem inv_resetGame (r : Nat) (s : GameState) : Inv (resetGame r s) := by
  refine ⟨?_, ?_, Or.inl ?_⟩
  · show initialSnake.Nodup
    decide
  · show initialSnake.length = 3 + 0
    decide
  · simp only [resetGame]
    intro c hc heq
    subst heq
    exact spawnFood_not_mem freeCells_initialSnake_ne hc

theorem inv_initState (r b : Nat) : Inv (initState r b) := by
  have h := inv_resetGame r (initState r b)
  exact inv_of_fields rfl rfl rfl h

theorem inv_tick (r : Nat) (s : GameState) (h : Inv s) : Inv (tick r s) := by
  obtain ⟨hnd, hlen, hfood⟩ := h
  cases hc : (hitWall (nextHeadOf s) || cellOccupied s.snake (nextHeadOf s)) with
  | true =>
    rw [tick_collision r hc]
    exact ⟨hnd, hlen, hfood⟩
  | false =>
    obtain ⟨hw, hnotmem⟩ := no_collision_parts hc
    have hsnil : s.snake ≠ [] := by
      intro hnil
      rw [hnil] at hlen
      simp only [List.length_nil] at hlen
      omega
    cases he : hasEaten s with
    | true =>
      rw [tick_eat r hc he]
      refine ⟨List.nodup_cons.2 ⟨hnotmem, hnd⟩, by simp [hlen]; omega, ?_⟩
      unfold foodSafe
      by_cases hfull : freeCells (nextHeadOf s :: s.snake) = []
      · exact Or.inr fun p hp => full_of_freeCells_nil hfull hp
      · refine Or.inl fun c hc heq => ?_
        exact spawnFood_not_mem hfull (heq ▸ hc)
    | false =>
      rw [tick_move r hc he]
      have hsub := List.dropLast_sublist (nextHeadOf s :: s.snake)
      refine ⟨(List.nodup_cons.2 ⟨hnotmem, hnd⟩).sublist hsub, ?_, ?_⟩
      · simp [List.length_dropLast, hlen]
      · unfold foodSafe
        cases hfood with
        | inl hoff =>
          refine Or.inl fun c hcmem heq => ?_
          have hcm : c ∈ nextHeadOf s :: s.snake := hsub.mem hcmem
          rcases List.mem_cons.1 hcm with hch | hct
          · have hne : nextHeadOf s ≠ s.food := (hasEaten_false_iff s).1 he
            exact hne (by rw [hch] at heq; exact heq.symm)
          · exact hoff c hct heq
        | inr hcover =>
          exfalso
          have : nextHeadOf s ∈ s.snake := hcover (nextHeadOf s) hw
          exact hnotmem this

theorem inv_handleKeyDown (k : Key) (r : Nat) (s : GameState) (h : Inv s) :
    Inv (handleKeyDown k r s) := by
  cases hd : DIRECTIONS k with
  | none =>
    unfold handleKeyDown
    by_cases hsp : k = Key.space ∧ s.status ≠ Status.running
    · rw [if_pos hsp]
      exact inv_resetGame r s
    · rw [if_neg hsp, hd]
      exact h
  | some next =>
    rw [handleKeyDown_direction_key r hd]
    by_cases h1 : s.status ≠ Status.running
    · rw [if_pos h1]
      by_cases h2 : s.status = Status.ready
      · rw [if_pos h2]
        exact inv_of_fields rfl rfl rfl h
      · rw [if_neg h2]
        exact h
    · rw [if_neg h1]
      by_cases h3 : isOpposite (effectiveDirection s) next = true
      · rw [if_pos h3]
        exact h
      · rw [if_neg h3]
        exact inv_of_fields rfl rfl rfl h

theorem inv_reachable {s : GameState} (h : Reachable s) : Inv s := by
  induction h with
  | init r b => exact inv_initState r b
  | stepReset r hr ih => exact inv_resetGame r _
  | stepKey k r hr ih => exact inv_handleKeyDown k r _ ih
  | stepTick r hr hst ih => exact inv_tick r _ ih

theorem freeCells_allCells_nil : freeCells allCells = [] :=
  List.eq_nil_iff_forall_not_mem.2 fun p hp =>
    (mem_freeCells.1 hp).2 (mem_freeCells.1 hp).1

/-! ### The claims -/

/-- Claim C1.  The claim states that a tick consuming a buffered pending
direction promotes it to the current direction, so later input-free ticks
keep moving that way.  The code does use the pending direction for the move
and clears the buffer, but never calls `setDirection`, so the next tick
falls back to the stale `direction` state: from `sC1` (direction right,
pending down, head (10,10)) the first tick moves down to (10,11), yet the
second tick moves right to (11,11) instead of continuing down to (10,12). -/
theorem c1_direction_not_promoted :
    (tick 0 sC1).snake.headD { x := 0, y := 0 } = { x := 10, y := 11 } ∧
    (tick 0 sC1).pending = none ∧
    (tick 0 sC1).status = Status.running ∧
    (tick 0 sC1).direction = { x := 1, y := 0 } ∧
    (tick 0 (tick 0 sC1)).snake.headD { x := 0, y := 0 } = { x := 11, y := 11 } ∧
    (tick 0 (tick 0 sC1)).snake.headD { x := 0, y := 0 } ≠ { x := 10, y := 12 } := by
  decide

/-- Claim C2.  The claim states that a non-opposite direction key pressed in
`ready` both starts the game and overwrites the pending buffer.  The code
transitions `ready` to `running` but then returns on the stale closure check
`if (status !== "running") return;` before the buffer write: pressing
ArrowDown in the `ready` state `sC2` yields status `running` with the
pending buffer still empty. -/
theorem c2_ready_input_not_buffered :
    (handleKeyDown Key.arrowDown 0 sC2).status = Status.running ∧
    (handleKeyDown Key.arrowDown 0 sC2).pending = none ∧
    (handleKeyDown Key.arrowDown 0 sC2).pending ≠ some { x := 0, y := 1 } := by
  decide

/-- Claim C3.  In a running state, a tick whose next head equals any
segment of the pre-move snake — the tail included, since the tail is still
a member of the pre-move list — is a self collision: the game ends and the
snake is left unchanged. -/
theorem c3_self_collision (s : GameState) (r : Nat)
    (hrun : s.status = Status.running)
    (hmem : nextHeadOf s ∈ s.snake) :
    (tick r s).status = Status.over ∧ (tick r s).snake = s.snake := by
  rw [tick_collision r (collision_cond_of_mem hmem)]
  exact ⟨rfl, rfl⟩

/-- Witness for C3, at the chase-your-own-tail state `sTail`: the next head
is exactly the current tail cell, and the tick ends the game. -/
theorem c3_self_collision_witness :
    sTail.status = Status.running ∧
    nextHeadOf sTail = sTail.snake.getLast (by decide) ∧
    ((tick 0 sTail).status = Status.over ∧ (tick 0 sTail).snake = sTail.snake) :=
  ⟨rfl, by decide, c3_self_collision sTail 0 rfl (by decide)⟩

/-- Claim C4.  In a running state, a tick whose next head is off the board
or on a pre-move segment ends the game, updates the best score to
`max bestScore score`, and leaves the snake exactly as it was. -/
theorem c4_collision_outcome (s : GameState) (r : Nat)
    (hrun : s.status = Status.running)
    (hcol : hitWall (nextHeadOf s) = true ∨ nextHeadOf s ∈ s.snake) :
    (tick r s).status = Status.over ∧
    (tick r s).bestScore = max s.bestScore s.score ∧
    (tick r s).snake = s.snake := by
  have hc : (hitWall (nextHeadOf s) || cellOccupied s.snake (nextHeadOf s)) = true := by
    rcases hcol with hw | hm
    · rw [Bool.or_eq_true]
      exact Or.inl hw
    · exact collision_cond_of_mem hm
  rw [tick_collision r hc]
  exact ⟨rfl, rfl, rfl⟩

/-- Witness for C4, at the wall state `sWall`: the next head is (-1,5) —
the spec's own example — and the tick ends the game with the snake intact
and the best score raised to `max 1 2`. -/
theorem c4_collision_outcome_witness :
    nextHeadOf sWall = { x := -1, y := 5 } ∧
    ((tick 0 sWall).status = Status.over ∧
     (tick 0 sWall).bestScore = max sWall.bestScore sWall.score ∧
     (tick 0 sWall).snake = sWall.snake) :=
  ⟨by decide, c4_collision_outcome sWall 0 rfl (Or.inl (by decide))⟩

/-- Claim C5.  In a running state, a collision-free tick whose next head is
the food cell prepends the head without popping the tail (length grows by
one), increments the score, lowers the speed by 5 with a floor of 60, and
spawns the new food against the grown snake — off the grown snake whenever
a free cell exists. -/
theorem c5_eat_tick (s : GameState) (r : Nat)
    (hrun : s.status = Status.running)
    (hw : hitWall (nextHeadOf s) = false)
    (hs : nextHeadOf s ∉ s.snake)
    (hf : nextHeadOf s = s.food) :
    (tick r s).snake = nextHeadOf s :: s.snake ∧
    (tick r s).snake.length = s.snake.length + 1 ∧
    (tick r s).score = s.score + 1 ∧
    (tick r s).speed = max 60 (s.speed - 5) ∧
    (tick r s).food = spawnFood (nextHeadOf s :: s.snake) r ∧
    (freeCells (nextHeadOf s :: s.snake) ≠ [] →
      (tick r s).food ∉ nextHeadOf s :: s.snake) := by
  have hc : (hitWall (nextHeadOf s) || cellOccupied s.snake (nextHeadOf s)) = false :=
    Bool.or_eq_false_iff.2 ⟨hw, cellOccupied_eq_false.2 hs⟩
  have he : hasEaten s = true := (hasEaten_iff s).2 hf
  rw [tick_eat r hc he]
  refine ⟨rfl, by simp, rfl, rfl, rfl, fun hfree => ?_⟩
  exact spawnFood_not_mem hfree

/-- Witness for C5, at the spec's eating example `sEat` (food at (11,10)). -/
theorem c5_eat_tick_witness :
    (tick 3 sEat).snake = nextHeadOf sEat :: sEat.snake ∧
    (tick 3 sEat).snake.length = sEat.snake.length + 1 ∧
    (tick 3 sEat).score = sEat.score + 1 ∧
    (tick 3 sEat).speed = max 60 (sEat.speed - 5) ∧
    (tick 3 sEat).food = spawnFood (nextHeadOf sEat :: sEat.snake) 3 ∧
    (freeCells (nextHeadOf sEat :: sEat.snake) ≠ [] →
      (tick 3 sEat).food ∉ nextHeadOf sEat :: sEat.snake) :=
  c5_eat_tick sEat 3 rfl (by decide) (by decide) (by decide)

/-- Claim C6.  In a running state, a collision-free tick whose next head is
not the food cell prepends the head and pops the tail — length unchanged —
and leaves food, score and speed unchanged. -/
theorem c6_move_tick (s : GameState) (r : Nat)
    (hrun : s.status = Status.running)
    (hne : s.snake ≠ [])
    (hw : hitWall (nextHeadOf s) = false)
    (hs : nextHeadOf s ∉ s.snake)
    (hf : nextHeadOf s ≠ s.food) :
    (tick r s).snake = (nextHeadOf s :: s.snake).dropLast ∧
    (tick r s).snake = nextHeadOf s :: s.snake.dropLast ∧
    (tick r s).snake.length = s.snake.length ∧
    (tick r s).food = s.food ∧
    (tick r s).score = s.score ∧
    (tick r s).speed = s.speed := by
  have hc : (hitWall (nextHeadOf s) || cellOccupied s.snake (nextHeadOf s)) = false :=
    Bool.or_eq_false_iff.2 ⟨hw, cellOccupied_eq_false.2 hs⟩
  have he : hasEaten s = false := (hasEaten_false_iff s).2 hf
  rw [tick_move r hc he]
  refine ⟨rfl, ?_, ?_, rfl, rfl, rfl⟩
  · show (nextHeadOf s :: s.snake).dropLast = nextHeadOf s :: s.snake.dropLast
    cases hsn : s.snake with
    | nil => exact absurd hsn hne
    | cons a l => exact List.dropLast_cons₂
  · show (nextHeadOf s :: s.snake).dropLast.length = s.snake.length
    rw [List.length_dropLast]
    simp

/-- Witness for C6, at the spec's plain-move example `sMove`. -/
theorem c6_move_tick_witness :
    (tick 0 sMove).snake = (nextHeadOf sMove :: sMove.snake).dropLast ∧
    (tick 0 sMove).snake = nextHeadOf sMove :: sMove.snake.dropLast ∧
    (tick 0 sMove).snake.length = sMove.snake.length ∧
    (tick 0 sMove).food = sMove.food ∧
    (tick 0 sMove).score = sMove.score ∧
    (tick 0 sMove).speed = sMove.speed :=
  c6_move_tick sMove 0 rfl (by decide) (by decide) (by decide) (by decide)

/-- Claim C7.  In every reachable state the food is off the snake — except
in the degenerate fallback the claim itself names, in which the snake
occupies every board cell; and `spawnFood` returns a free cell whenever one
exists, falling back to (0,0) exactly when the board is fully occupied. -/
theorem c7_food_placement :
    (∀ s : GameState, Reachable s →
      (∀ c ∈ s.snake, s.food ≠ c) ∨
        (∀ p : Point, hitWall p = false → p ∈ s.snake)) ∧
    (∀ (occ : List Point) (r : Nat), freeCells occ ≠ [] → spawnFood occ r ∉ occ) ∧
    (∀ (occ : List Point) (r : Nat), freeCells occ = [] →
      spawnFood occ r = { x := 0, y := 0 }) := by
  refine ⟨fun s h => (inv_reachable h).2.2, ?_, ?_⟩
  · intro occ r hfree
    exact spawnFood_not_mem hfree
  · intro occ r hfull
    exact spawnFood_of_full hfull

/-- Witness for C7: the fresh mount keeps the food off the snake; a food
spawned against the initial snake misses it; spawning against a fully
occupied board falls back to (0,0). -/
theorem c7_food_placement_witness :
    ((∀ c ∈ (initState 0 0).snake, (initState 0 0).food ≠ c) ∨
      (∀ p : Point, hitWall p = false → p ∈ (initState 0 0).snake)) ∧
    spawnFood initialSnake 5 ∉ initialSnake ∧
    spawnFood allCells 0 = { x := 0, y := 0 } :=
  ⟨c7_food_placement.1 (initState 0 0) (Reachable.init 0 0),
   c7_food_placement.2.1 initialSnake 5 freeCells_initialSnake_ne,
   c7_food_placement.2.2 allCells 0 freeCells_allCells_nil⟩

/-- Claim C8.  In every reachable state the snake is duplicate-free and has
length exactly 3 plus the score (so at least 3, and exactly 3 before any
food is eaten); a tick never shrinks the snake, and no key other than the
space-bar reset ever changes it. -/
theorem c8_snake_invariant :
    (∀ s : GameState, Reachable s →
      s.snake.Nodup ∧ s.snake.length = 3 + s.score ∧ 3 ≤ s.snake.length) ∧
    (∀ (s : GameState) (r : Nat), s.snake.length ≤ (tick r s).snake.length) ∧
    (∀ (s : GameState) (k : Key) (r : Nat), k ≠ Key.space →
      (handleKeyDown k r s).snake = s.snake) := by
  refine ⟨fun s h => ?_, ?_, ?_⟩
  · obtain ⟨hnd, hlen, _⟩ := inv_reachable h
    exact ⟨hnd, hlen, by omega⟩
  · intro s r
    cases hc : (hitWall (nextHeadOf s) || cellOccupied s.snake (nextHeadOf s)) with
    | true =>
      rw [tick_collision r hc]
    | false =>
      cases he : hasEaten s with
      | true =>
        rw [tick_eat r hc he]
        simp
      | false =>
        rw [tick_move r hc he]
        show s.snake.length ≤ (nextHeadOf s :: s.snake).dropLast.length
        rw [List.length_dropLast]
        simp
  · intro s k r hk
    cases hd : DIRECTIONS k with
    | none =>
      unfold handleKeyDown
      rw [if_neg (fun h => hk h.1), hd]
    | some next =>
      rw [handleKeyDown_direction_key r hd]
      by_cases h1 : s.status ≠ Status.running
      · rw [if_pos h1]
        by_cases h2 : s.status = Status.ready
        · rw [if_pos h2]
        · rw [if_neg h2]
      · rw [if_neg h1]
        by_cases h3 : isOpposite (effectiveDirection s) next = true
        · rw [if_pos h3]
        · rw [if_neg h3]

/-- Witness for C8: the fresh mount satisfies the body invariant, and an
ArrowUp key leaves its snake untouched. -/
theorem c8_snake_invariant_witness :
    ((initState 0 0).snake.Nodup ∧
      (initState 0 0).snake.length = 3 + (initState 0 0).score ∧
      3 ≤ (initState 0 0).snake.length) ∧
    (handleKeyDown Key.arrowUp 0 (initState 0 0)).snake = (initState 0 0).snake :=
  ⟨c8_snake_invariant.1 (initState 0 0) (Reachable.init 0 0),
   c8_snake_invariant.2.2 (initState 0 0) Key.arrowUp 0 (by decide)⟩

/-- Counterexample to claim C9 as stated: the load effect does not treat a
malformed stored best score as absence — a stored `"abc"` is converted by
`Number` to NaN and stored as the best score, not defaulted to 0. -/
theorem c9_malformed_not_defaulted :
    loadBestScore (some ("abc")) = JSNumber.nan ∧
    loadBestScore (some ("abc")) ≠ JSNumber.num 0 := by
  decide

/-- Claim C9, amended.  An absent or empty (falsy) stored value leaves the
best score at its initial 0; any other stored string is converted with
`Number` and propagated unvalidated — a malformed one as NaN. -/
theorem c9_load_amended :
    loadBestScore none = JSNumber.num 0 ∧
    loadBestScore (some ("")) = JSNumber.num 0 ∧
    (∀ str : String, str.data ≠ [] → loadBestScore (some str) = jsNumber str) ∧
    loadBestScore (some ("abc")) = JSNumber.nan := by
  refine ⟨rfl, by decide, ?_, by decide⟩
  intro str hne
  show (if str.data = [] then JSNumber.num 0 else jsNumber str) = jsNumber str
  rw [if_neg hne]

/-- Witness for the amended C9: a well-formed stored digit string is passed
through `Number`. -/
theorem c9_load_amended_witness :
    loadBestScore (some ("12")) = jsNumber ("12") :=
  c9_load_amended.2.2.1 ("12") (by decide)

/-- Counterexample to claim C10 as stated: in the `ready` state an
opposite-of-effective direction key is NOT a silent no-op — the code
transitions status to `running` before the reversal check.  At `sC2`
(ready, effective direction right) an ArrowLeft press changes the status. -/
theorem c10_opposite_in_ready_changes_state :
    sC2.status = Status.ready ∧
    sC2.pending = none ∧
    DIRECTIONS Key.arrowLeft = some { x := -1, y := 0 } ∧
    isOpposite (effectiveDirection sC2) { x := -1, y := 0 } = true ∧
    (handleKeyDown Key.arrowLeft 0 sC2).status ≠ sC2.status := by
  decide

/-- Claim C10, amended.  While running, a requested direction opposite to
the effective direction (pending if buffered, else active) is silently
ignored with all state unchanged; in `ready`, any direction key — opposite
included — only transitions status to `running` without buffering; and the
down-then-up example holds from a running state: up is rejected and down
stays buffered. -/
theorem c10_reversal_amended :
    (∀ (s : GameState) (k : Key) (next : Point) (r : Nat),
      s.status = Status.running → DIRECTIONS k = some next →
      isOpposite (effectiveDirection s) next = true →
      handleKeyDown k r s = s) ∧
    (∀ (s : GameState) (k : Key) (next : Point) (r : Nat),
      s.status = Status.ready → DIRECTIONS k = some next →
      handleKeyDown k r s = { s with status := Status.running }) ∧
    (handleKeyDown Key.arrowDown 0 sRun).pending = some { x := 0, y := 1 } ∧
    (handleKeyDown Key.arrowUp 0 (handleKeyDown Key.arrowDown 0 sRun)).pending
      = some { x := 0, y := 1 } := by
  refine ⟨?_, ?_, by decide, by decide⟩
  · intro s k next r hrun hk hop
    rw [handleKeyDown_direction_key r hk]
    rw [if_neg (by simp [hrun]), if_pos hop]
  · intro s k next r hready hk
    rw [handleKeyDown_direction_key r hk]
    rw [if_pos (by simp [hready]), if_pos hready]

/-- Witness for the amended C10: ArrowLeft (opposite of right) pressed
while running at `sRun` changes nothing, and ArrowDown pressed in `ready`
at `sC2` only starts the game. -/
theorem c10_reversal_amended_witness :
    handleKeyDown Key.arrowLeft 0 sRun = sRun ∧
    handleKeyDown Key.arrowDown 0 sC2 = { sC2 with status := Status.running } :=
  ⟨c10_reversal_amended.1 sRun Key.arrowLeft { x := -1, y := 0 } 0 rfl rfl (by decide),
   c10_reversal_amended.2.1 sC2 Key.arrowDown { x := 0, y := 1 } 0 rfl rfl⟩

end Snake
